import Mathlib

/-!
# bond: the entity store (`store.go`)

A shallow embedding of `store.Tx`, `store.Append`, `store.Save`, `store.Insert`,
`store.Update`, `store.Delete` and `store.Session`.

* The item handed to the store is a mutable record; its primary-key field is `Item.pk`.
* Hooks are arbitrary user code: they receive the session, may rewrite the item and the
  stored data, and may fail.
* The underlying `db.Collection` is a collaborator, taken as a parameter (`Backend`).
* Every call the store makes to a hook or to the collection is appended to a trace.
* `*session` values live in a heap of session objects, so that aliasing is visible.
* The type switch of `Tx` takes the first case the dynamic type of its argument
  satisfies; a `Session` is a `db.Database`.
-/

namespace Bond

/-! ## Values, errors, items -/

/-- The integer types of Go. -/
inductive IntKind where
  | int
  | int8
  | int16
  | int32
  | int64
  | uint
  | uint8
  | uint16
  | uint32
  | uint64
  deriving DecidableEq, Repr

/-- Val is a dynamic value of a comparable type held in an `interface{}`: the untyped
nil, an integer of one of the integer types, or a string. Equality is Go's interface
equality (same dynamic type and same value). -/
inductive Val where
  | nil
  | int (kind : IntKind) (n : Int)
  | str (s : String)
  deriving DecidableEq, Repr

/-- An `int64` value, the type of the identifiers in the tests of the package. -/
def Val.int64 (n : Int) : Val := Val.int IntKind.int64 n

/-- Err is an error value; `ErrZeroItemID` is the sentinel of the package, every other
error (metadata, validation, hook, storage) is identified by a code. -/
inductive Err where
  | ErrZeroItemID
  | code (n : Nat)
  deriving DecidableEq, Repr

/-- Item is the state of the domain object behind the `item interface{}` argument: the
current value of its primary-key field and its other fields. -/
structure Item where
  pk : Val
  fields : List (String × Val)
  deriving DecidableEq, Repr

/-- DbRef is a value of interface type `db.Database`: a database or transaction handle
of the collaborator, or a session of this package (a `Session` embeds `db.Database`)
given by its address. -/
inductive DbRef where
  | handle (v : Nat)
  | session (p : Nat)
  deriving DecidableEq, Repr

/-- Collection is a handle of the collaborator `db.Collection`: a name inside a database. -/
structure Collection where
  database : DbRef
  name : String
  deriving DecidableEq, Repr

/-- Name is `db.Collection.Name()`. -/
def Collection.Name (c : Collection) : String := c.name

/-- C is `db.Database.C(name)`: the collection of that name in the database `d`. -/
def Database.C (d : DbRef) (name : String) : Collection := { database := d, name := name }

/-- The `store` struct: the embedded `db.Collection` and the `session` it is bound to
(a pointer to a session object, an address in the heap of sessions). -/
structure store where
  Collection : Collection
  session : Nat
  deriving DecidableEq, Repr

/-- Name of a store is the promoted method of the embedded collection. -/
def store.Name (s : store) : String := s.Collection.Name

/-- Session is `store.Session()`: it returns the bound session. -/
def store.Session (s : store) : Nat := s.session

/-! ## Hooks, field metadata, the collection primitives -/

/-- The seven optional hooks. -/
inductive HookName where
  | Validate
  | BeforeCreate
  | AfterCreate
  | BeforeUpdate
  | AfterUpdate
  | BeforeDelete
  | AfterDelete
  deriving DecidableEq, Repr

/-- One call made by the store: a hook (with the item state it was entered with) or a
primitive of the underlying collection (with its arguments). -/
inductive Event where
  | hook (name : HookName) (seen : Item)
  | Append (item : Item)
  | FindUpdate (key : String) (id : Val) (item : Item)
  | FindRemove (key : String) (id : Val)
  deriving DecidableEq, Repr

/-- What a hook leaves behind: the item, the stored data, and its `error` result. -/
structure HookResult (DB : Type) where
  item : Item
  db : DB
  err : Option Err

/-- A hook body once its arguments are fixed: from the item and the stored data. -/
abbrev Hook (DB : Type) := Item → DB → HookResult DB

/-- The `fieldInfo` of the primary-key field: its column name and its zero value. -/
structure fieldInfo where
  Name : String
  Zero : Val
  deriving DecidableEq, Repr

/-- The `structInfo` of a type, of which the store reads `pkFieldInfo`. -/
structure structInfo where
  pkFieldInfo : fieldInfo
  deriving DecidableEq, Repr

/-- ItemType is what is fixed by the dynamic type of the item: the answer of
`structMapper.getPrimaryField` (declared outside `store.go`, hence a parameter), whether
the resolved field can be set through reflection, and the hooks the type implements
(`none`: the type assertion `item.(HasX)` fails). Every hook but `Validate` receives
the session of the store. -/
structure ItemType (DB : Type) where
  getPrimaryField : Except Err structInfo
  pkSettable : Bool
  Validate : Option (Hook DB)
  BeforeCreate : Option (Nat → Hook DB)
  AfterCreate : Option (Nat → Hook DB)
  BeforeUpdate : Option (Nat → Hook DB)
  AfterUpdate : Option (Nat → Hook DB)
  BeforeDelete : Option (Nat → Hook DB)
  AfterDelete : Option (Nat → Hook DB)

/-- Backend is the behaviour of the collaborator on the stored data `DB`:
`Collection.Append(item)`, `Collection.Find(db.Cond{key: id}).Update(item)` and
`Collection.Find(db.Cond{key: id}).Remove()`. The collaborator reads the item. -/
structure Backend (DB : Type) where
  Append : Collection → Item → DB → DB × Val × Option Err
  FindUpdate : Collection → String → Val → Item → DB → DB × Option Err
  FindRemove : Collection → String → Val → DB → DB × Option Err

/-- State threaded through an operation: the item, the stored data, the calls so far. -/
structure State (DB : Type) where
  item : Item
  db : DB
  trace : List Event

/-- The statement `if m, ok := item.(HasX); ok { err = m.X(..) }`: nothing happens when
the hook is not implemented, otherwise the hook runs once on the current state. -/
def callHook {DB : Type} (name : HookName) (h : Option (Hook DB)) (st : State DB) :
    State DB × Option Err :=
  match h with
  | none => (st, none)
  | some f =>
    let r := f st.item st.db
    ({ item := r.item, db := r.db, trace := st.trace ++ [Event.hook name st.item] }, r.err)

/-- Whether `reflect.Value.Set` accepts the identifier for a field whose zero value is
`zero`: the invalid value of a nil identifier is refused, a field of interface type
takes anything, otherwise the dynamic types must be the same (an `int64` is not
assignable to an `int` field). -/
def assignable (zero id : Val) : Bool :=
  match id, zero with
  | Val.nil, _ => false
  | _, Val.nil => true
  | Val.int k _, Val.int z _ => decide (k = z)
  | Val.str _, Val.str _ => true
  | _, _ => false

/-- The statement `pkField.Set(reflect.ValueOf(id))`: `none` is a panic. -/
def pkFieldSet {DB : Type} (T : ItemType DB) (info : structInfo) (it : Item) (id : Val) :
    Option Item :=
  if T.pkSettable && assignable info.pkFieldInfo.Zero id then some { it with pk := id }
  else none

/-- Ret is the end of a call that declares an `error` result: it returned (with nil or
an error) or it panicked. -/
inductive Ret where
  | returned (err : Option Err)
  | panicked
  deriving DecidableEq, Repr

/-! ## The store operations -/

/-- Append, `store.go` lines 63-90. The result is the pair `(id, err)`. -/
def store.Append {DB : Type} (B : Backend DB) (T : ItemType DB) (s : store)
    (st : State DB) : State DB × Val × Option Err :=
  match callHook HookName.Validate T.Validate st with
  | (st1, some err) => (st1, Val.nil, some err)
  | (st1, none) =>
    match callHook HookName.BeforeCreate (T.BeforeCreate.map (fun f => f s.session)) st1 with
    | (st2, some err) => (st2, Val.nil, some err)
    | (st2, none) =>
      match B.Append s.Collection st2.item st2.db with
      | (db3, _, some err) =>
        ({ st2 with db := db3, trace := st2.trace ++ [Event.Append st2.item] },
          Val.nil, some err)
      | (db3, id, none) =>
        match callHook HookName.AfterCreate (T.AfterCreate.map (fun f => f s.session))
            { st2 with db := db3, trace := st2.trace ++ [Event.Append st2.item] } with
        | (st4, some err) => (st4, Val.nil, some err)
        | (st4, none) => (st4, id, none)

/-- Insert, `store.go` lines 121-146. -/
def store.Insert {DB : Type} (B : Backend DB) (T : ItemType DB) (s : store)
    (st : State DB) : State DB × Ret :=
  match T.getPrimaryField with
  | Except.error err => (st, Ret.returned (some err))
  | Except.ok info =>
    match callHook HookName.BeforeCreate (T.BeforeCreate.map (fun f => f s.session)) st with
    | (st1, some err) => (st1, Ret.returned (some err))
    | (st1, none) =>
      match B.Append s.Collection st1.item st1.db with
      | (db2, _, some err) =>
        ({ st1 with db := db2, trace := st1.trace ++ [Event.Append st1.item] },
          Ret.returned (some err))
      | (db2, id, none) =>
        match pkFieldSet T info st1.item id with
        | none =>
          ({ st1 with db := db2, trace := st1.trace ++ [Event.Append st1.item] },
            Ret.panicked)
        | some it3 =>
          match callHook HookName.AfterCreate (T.AfterCreate.map (fun f => f s.session))
              { item := it3, db := db2, trace := st1.trace ++ [Event.Append st1.item] } with
          | (st4, some err) => (st4, Ret.returned (some err))
          | (st4, none) => (st4, Ret.returned none)

/-- Update, `store.go` lines 148-173. `id` is read before `BeforeUpdate` runs. -/
def store.Update {DB : Type} (B : Backend DB) (T : ItemType DB) (s : store)
    (st : State DB) : State DB × Option Err :=
  match T.getPrimaryField with
  | Except.error err => (st, some err)
  | Except.ok info =>
    let id := st.item.pk
    match callHook HookName.BeforeUpdate (T.BeforeUpdate.map (fun f => f s.session)) st with
    | (st1, some err) => (st1, some err)
    | (st1, none) =>
      let idKey := info.pkFieldInfo.Name
      match B.FindUpdate s.Collection idKey id st1.item st1.db with
      | (db2, some err) =>
        ({ st1 with db := db2, trace := st1.trace ++ [Event.FindUpdate idKey id st1.item] },
          some err)
      | (db2, none) =>
        callHook HookName.AfterUpdate (T.AfterUpdate.map (fun f => f s.session))
          { st1 with db := db2, trace := st1.trace ++ [Event.FindUpdate idKey id st1.item] }

/-- Delete, `store.go` lines 175-206. -/
def store.Delete {DB : Type} (B : Backend DB) (T : ItemType DB) (s : store)
    (st : State DB) : State DB × Option Err :=
  match T.getPrimaryField with
  | Except.error err => (st, some err)
  | Except.ok info =>
    let id := st.item.pk
    let idKey := info.pkFieldInfo.Name
    if id = info.pkFieldInfo.Zero then (st, some Err.ErrZeroItemID)
    else
      match callHook HookName.BeforeDelete (T.BeforeDelete.map (fun f => f s.session)) st with
      | (st1, some err) => (st1, some err)
      | (st1, none) =>
        match B.FindRemove s.Collection idKey id st1.db with
        | (db2, some err) =>
          ({ st1 with db := db2, trace := st1.trace ++ [Event.FindRemove idKey id] },
            some err)
        | (db2, none) =>
          callHook HookName.AfterDelete (T.AfterDelete.map (fun f => f s.session))
            { st1 with db := db2, trace := st1.trace ++ [Event.FindRemove idKey id] }

/-- Save, `store.go` lines 98-119. The primary key is read after `Validate` ran. -/
def store.Save {DB : Type} (B : Backend DB) (T : ItemType DB) (s : store)
    (st : State DB) : State DB × Ret :=
  match T.getPrimaryField with
  | Except.error err => (st, Ret.returned (some err))
  | Except.ok info =>
    match callHook HookName.Validate T.Validate st with
    | (st1, some err) => (st1, Ret.returned (some err))
    | (st1, none) =>
      let id := st1.item.pk
      if id = info.pkFieldInfo.Zero then store.Insert B T s st1
      else
        let r := store.Update B T s st1
        (r.1, Ret.returned r.2)

/-! ## Sessions and `Tx` -/

/-- The `session` struct behind a `*session`: its `Database` (`none` is the nil
interface) and its `stores` registry (`none` is the nil map). -/
structure session where
  Database : Option DbRef
  stores : Option (List (String × store))
  deriving DecidableEq, Repr

/-- The session objects allocated so far; a `*session` is an index into this list. -/
abbrev Heap := List session

/-- A raw `*sql.DB` or `*sql.Tx`. -/
inductive SqlHandle where
  | DB (v : Nat)
  | Tx (v : Nat)
  deriving DecidableEq, Repr

/-- Target is the value passed to `Tx`, by its dynamic type: a `db.Tx`, a `db.Database`
that is not a transaction, a `*sql.DB`, a `*sql.Tx`, a `Session` (the `*session` at an
address), or a value of any other type. -/
inductive Target where
  | Tx (v : Nat)
  | Database (v : Nat)
  | sqlDB (v : Nat)
  | sqlTx (v : Nat)
  | Session (p : Nat)
  | unknown
  deriving DecidableEq, Repr

/-- The cases of the type switch of `Tx` that a dynamic type satisfies. -/
structure Satisfies where
  Tx : Bool
  Database : Bool
  sqlDB : Bool
  sqlTx : Bool
  Session : Bool
  deriving DecidableEq, Repr

/-- What the dynamic type of a target satisfies. A `db.Tx` is a `db.Database` with
`Commit` and `Rollback`. A `Session` is a `db.Database` as well: the interface is
declared outside `store.go`, where `WithSession` is called on a `Session` and
`session{Database: v}` holds what a `Session` wraps, and the tests call `Ping`,
`Collections` and `Collection` through `bond.Session`. -/
def Target.satisfies : Target → Satisfies
  | Target.Tx _ =>
    { Tx := true, Database := true, sqlDB := false, sqlTx := false, Session := false }
  | Target.Database _ =>
    { Tx := false, Database := true, sqlDB := false, sqlTx := false, Session := false }
  | Target.sqlDB _ =>
    { Tx := false, Database := false, sqlDB := true, sqlTx := false, Session := false }
  | Target.sqlTx _ =>
    { Tx := false, Database := false, sqlDB := false, sqlTx := true, Session := false }
  | Target.Session _ =>
    { Tx := false, Database := true, sqlDB := false, sqlTx := false, Session := true }
  | Target.unknown =>
    { Tx := false, Database := false, sqlDB := false, sqlTx := false, Session := false }

/-- The target as a value of type `db.Database` (or `db.Tx`). -/
def Target.asDatabase : Target → Option DbRef
  | Target.Tx v => some (DbRef.handle v)
  | Target.Database v => some (DbRef.handle v)
  | Target.Session p => some (DbRef.session p)
  | _ => none

/-- The target as a raw handle. -/
def Target.asSql : Target → Option SqlHandle
  | Target.sqlDB v => some (SqlHandle.DB v)
  | Target.sqlTx v => some (SqlHandle.Tx v)
  | _ => none

/-- The target as a value of type `Session`. -/
def Target.asSession : Target → Option Nat
  | Target.Session p => some p
  | _ => none

/-- Env holds `Session.WithSession` (declared outside `store.go`): the clone it returns
for a raw handle, `none` when it returns nil. -/
structure Env where
  WithSession : session → SqlHandle → Option Nat

/-- The arms `case *sql.DB` and `case *sql.Tx`: `s.Session().WithSession(v)` and the
allocation of `&session{Database: clone}`. -/
def store.txClone (E : Env) (h : Heap) (s : store) (tx : Target) : Option (Heap × Nat) :=
  match h[s.Session]?, tx.asSql with
  | some cur, some raw =>
    some (h ++ [{ Database := (E.WithSession cur raw).map DbRef.handle, stores := none }],
      h.length)
  | _, _ => none

/-- The type switch of `Tx`, `store.go` lines 28-51, the first case that the dynamic
type satisfies being taken: the heap after the allocation of `&session{...}` and the
address of `sess`; `none` is a panic. -/
def store.txSession (E : Env) (h : Heap) (s : store) (tx : Target) : Option (Heap × Nat) :=
  if tx.satisfies.Tx then
    some (h ++ [{ Database := tx.asDatabase, stores := none }], h.length)
  else if tx.satisfies.Database then
    some (h ++ [{ Database := tx.asDatabase, stores := none }], h.length)
  else if tx.satisfies.sqlDB then store.txClone E h s tx
  else if tx.satisfies.sqlTx then store.txClone E h s tx
  else if tx.satisfies.Session then
    match tx.asSession with
    | none => none
    | some p => some (h, p)
  else none

/-- Whether a method of the database `d` can be called: a handle of the collaborator
answers; a session answers with the promoted method of its own `Database`, which
panics on a nil `Database` and never returns on a cycle of sessions (`fuel` bounds the
number of sessions visited). -/
def Database.callable (h : Heap) : Nat → DbRef → Bool
  | _, DbRef.handle _ => true
  | 0, DbRef.session _ => false
  | fuel + 1, DbRef.session p =>
    match h[p]? with
    | none => false
    | some cur =>
      match cur.Database with
      | none => false
      | some d => Database.callable h fuel d

/-- Tx, `store.go` lines 25-61: the heap after the call and the returned store; `none`
is a panic (unknown target, `sess` not a live `*session`, nil `Database`, or a
`Database` whose `C` cannot be called; the sessions behind it all existed before the
call). -/
def store.Tx (E : Env) (h : Heap) (s : store) (tx : Target) : Option (Heap × store) :=
  match store.txSession E h s tx with
  | none => none
  | some (h1, sess) =>
    match h1[sess]? with
    | none => none
    | some cur =>
      let h2 := if cur.stores = none then h1.set sess { cur with stores := some [] } else h1
      match cur.Database with
      | none => none
      | some d =>
        if Database.callable h h.length d then
          some (h2, { Collection := Database.C d s.Collection.Name, session := sess })
        else none

/-- A target is valid when the type switch knows it, the clone of a raw handle is not
nil, and a `Session` points to a live session whose database can be called. -/
def validTarget (E : Env) (h : Heap) (s : store) (tx : Target) : Bool :=
  match tx with
  | Target.Tx _ => true
  | Target.Database _ => true
  | Target.sqlDB v =>
    match h[s.Session]? with
    | none => false
    | some cur => (E.WithSession cur (SqlHandle.DB v)).isSome
  | Target.sqlTx v =>
    match h[s.Session]? with
    | none => false
    | some cur => (E.WithSession cur (SqlHandle.Tx v)).isSome
  | Target.Session p => Database.callable h h.length (DbRef.session p)
  | Target.unknown => false

/-- The entries of a registry; the nil map has none. -/
def session.entries (cur : session) : List (String × store) := cur.stores.getD []

/-- Whether a call is a collection primitive. -/
def Event.isPrimitive : Event → Bool
  | Event.hook _ _ => false
  | _ => true

/-- The collection primitives among the calls of a trace. -/
def primitives (tr : List Event) : List Event := tr.filter Event.isPrimitive

/-- The recorded call of an optional hook entered with the item `seen`. -/
def optEvent {α : Type} (h : Option α) (name : HookName) (seen : Item) : List Event :=
  match h with
  | none => []
  | some _ => [Event.hook name seen]

/-- No hook of the type `T` adds a row, for the row count `rows`. -/
def hooksAddNoRow {DB : Type} (rows : DB → Nat) (T : ItemType DB) : Prop :=
  (∀ f, T.Validate = some f → ∀ it db, rows (f it db).db ≤ rows db) ∧
  (∀ f, T.BeforeUpdate = some f → ∀ p it db, rows (f p it db).db ≤ rows db) ∧
  (∀ f, T.AfterUpdate = some f → ∀ p it db, rows (f p it db).db ≤ rows db)

/-- The update primitive of `B` adds no row, for the row count `rows`. -/
def updateAddsNoRow {DB : Type} (rows : DB → Nat) (B : Backend DB) : Prop :=
  ∀ c key id it db, rows (B.FindUpdate c key id it db).1 ≤ rows db

/-! ## Concrete collaborators, for runs that can be evaluated -/

/-- listBackend keeps the rows of a collection in a list: insert appends the row under
the next identifier, update replaces the rows with the given key, remove drops them. -/
def listBackend : Backend (List Item) where
  Append := fun _ it db =>
    (db ++ [{ it with pk := Val.int64 (Int.ofNat (db.length + 1)) }],
      Val.int64 (Int.ofNat (db.length + 1)), none)
  FindUpdate := fun _ _ id it db => (db.map (fun r => if r.pk = id then it else r), none)
  FindRemove := fun _ _ id db => (db.filter (fun r => !decide (r.pk = id)), none)

/-- The metadata of a struct whose primary key is the integer column `id`. -/
def idInfo : structInfo := { pkFieldInfo := { Name := "id", Zero := Val.int64 0 } }

/-- A hook that succeeds and changes nothing. -/
def keep : Hook (List Item) := fun it db => { item := it, db := db, err := none }

/-- A hook that fails with the error of code `n` and changes nothing. -/
def failWith (n : Nat) : Hook (List Item) :=
  fun it db => { item := it, db := db, err := some (Err.code n) }

/-- A hook that assigns `v` to the primary-key field of its receiver and then fails
with the error of code `n`. -/
def rekeyFail (v : Val) (n : Nat) : Hook (List Item) :=
  fun it db => { item := { it with pk := v }, db := db, err := some (Err.code n) }

/-- A hook that succeeds and assigns `v` to the primary-key field of its receiver. -/
def rekey (v : Val) : Hook (List Item) :=
  fun it db => { item := { it with pk := v }, db := db, err := none }

/-- A pointer to a struct with an `id` primary key and no hook. -/
def plainType : ItemType (List Item) where
  getPrimaryField := Except.ok idInfo
  pkSettable := true
  Validate := none
  BeforeCreate := none
  AfterCreate := none
  BeforeUpdate := none
  AfterUpdate := none
  BeforeDelete := none
  AfterDelete := none

/-- The same struct with every hook implemented, each succeeding. -/
def hookedType : ItemType (List Item) where
  getPrimaryField := Except.ok idInfo
  pkSettable := true
  Validate := some keep
  BeforeCreate := some (fun _ => keep)
  AfterCreate := some (fun _ => keep)
  BeforeUpdate := some (fun _ => keep)
  AfterUpdate := some (fun _ => keep)
  BeforeDelete := some (fun _ => keep)
  AfterDelete := some (fun _ => keep)

/-- A struct whose `AfterCreate` clears the `id` of its receiver. -/
def resettingType : ItemType (List Item) :=
  { plainType with AfterCreate := some (fun _ => rekey (Val.int64 0)) }

/-- A struct whose `AfterCreate` clears the `id` of its receiver and fails. -/
def clearingType : ItemType (List Item) :=
  { plainType with AfterCreate := some (fun _ => rekeyFail (Val.int64 0) 3) }

/-- The store of the collection `accounts`, bound to the session at address 0. -/
def accounts : store :=
  { Collection := Database.C (DbRef.handle 0) "accounts", session := 0 }

/-- An account with the given `id` and name. -/
def account (id : Int) (name : String) : Item :=
  { pk := Val.int64 id, fields := [("name", Val.str name)] }

/-- A `WithSession` that clones into database `v + 100`. -/
def cloningEnv : Env := { WithSession := fun _ r =>
  match r with
  | SqlHandle.DB v => some (v + 100)
  | SqlHandle.Tx v => some (v + 100) }

/-- A heap with the one session of the store `accounts`, its registry still nil. -/
def bareHeap : Heap := [{ Database := some (DbRef.handle 0), stores := none }]

/-! ## Lemmas -/

section Lemmas
variable {DB : Type}

theorem optEvent_map {α β : Type} (h : Option α) (f : α → β) (n : HookName) (it : Item) :
    optEvent (h.map f) n it = optEvent h n it := by
  cases h <;> rfl

theorem primitives_append (a b : List Event) :
    primitives (a ++ b) = primitives a ++ primitives b := by
  simp [primitives]

theorem primitives_optEvent {α : Type} (h : Option α) (n : HookName) (it : Item) :
    primitives (optEvent h n it) = [] := by
  cases h <;> rfl

theorem callHook_trace {n : HookName} {h : Option (Hook DB)} {st st1 : State DB}
    {e : Option Err} (hc : callHook n h st = (st1, e)) :
    st1.trace = st.trace ++ optEvent h n st.item := by
  cases h with
  | none =>
    simp only [callHook, Prod.mk.injEq] at hc
    rw [← hc.1]; simp [optEvent]
  | some f =>
    simp only [callHook, Prod.mk.injEq] at hc
    rw [← hc.1]; simp [optEvent]

theorem callHook_none {n : HookName} {st st1 : State DB} {e : Option Err}
    (hc : callHook n (none : Option (Hook DB)) st = (st1, e)) : st1 = st ∧ e = none := by
  simp only [callHook, Prod.mk.injEq] at hc
  exact ⟨hc.1.symm, hc.2.symm⟩

theorem callHook_some {n : HookName} {f : Hook DB} {st st1 : State DB} {e : Option Err}
    (hc : callHook n (some f) st = (st1, e)) :
    st1 = { item := (f st.item st.db).item, db := (f st.item st.db).db,
            trace := st.trace ++ [Event.hook n st.item] } ∧ e = (f st.item st.db).err := by
  simp only [callHook, Prod.mk.injEq] at hc
  exact ⟨hc.1.symm, hc.2.symm⟩

theorem callHook_eta (n : HookName) (h : Option (Hook DB)) (st : State DB) :
    callHook n h st = ((callHook n h st).1, (callHook n h st).2) := rfl

theorem callHook_mem_Append {n : HookName} {h : Option (Hook DB)} {st st1 : State DB}
    {e : Option Err} (hc : callHook n h st = (st1, e)) (it : Item)
    (hm : Event.Append it ∈ st1.trace) : Event.Append it ∈ st.trace := by
  rw [callHook_trace hc] at hm
  cases h with
  | none => simpa [optEvent] using hm
  | some f => simpa [optEvent] using hm

theorem callHook_rows (rows : DB → Nat) {n : HookName} {h : Option (Hook DB)}
    {st st1 : State DB} {e : Option Err}
    (hk : ∀ f, h = some f → ∀ it db, rows (f it db).db ≤ rows db)
    (hc : callHook n h st = (st1, e)) : rows st1.db ≤ rows st.db := by
  cases h with
  | none => rw [(callHook_none hc).1]
  | some f =>
    rw [(callHook_some hc).1]
    exact hk f rfl st.item st.db

theorem map_session_rows (rows : DB → Nat) (h : Option (Nat → Hook DB)) (p : Nat)
    (hk : ∀ f, h = some f → ∀ q it db, rows (f q it db).db ≤ rows db) :
    ∀ f, h.map (fun g => g p) = some f → ∀ it db, rows (f it db).db ≤ rows db := by
  intro f hf it db
  cases h with
  | none => simp at hf
  | some g =>
    simp only [Option.map_some', Option.some.injEq] at hf
    rw [← hf]
    exact hk g rfl p it db

/-- Inversion of a successful `Insert` whose `BeforeCreate` and insert are known. -/
theorem Insert_ok_inv (B : Backend DB) (T : ItemType DB) (s : store)
    (st st1 st4 : State DB) (info : structInfo) (db2 : DB) (id : Val)
    (hpk : T.getPrimaryField = Except.ok info)
    (hB : callHook HookName.BeforeCreate (T.BeforeCreate.map (fun g => g s.session)) st
        = (st1, none))
    (hA : B.Append s.Collection st1.item st1.db = (db2, id, none))
    (hI : store.Insert B T s st = (st4, Ret.returned none)) :
    callHook HookName.AfterCreate (T.AfterCreate.map (fun g => g s.session))
      { item := { st1.item with pk := id }, db := db2,
        trace := st1.trace ++ [Event.Append st1.item] } = (st4, none) := by
  simp only [store.Insert, hpk, hB, hA] at hI
  split at hI
  · simp at hI
  · rename_i it3 hS
    have h3 : it3 = { st1.item with pk := id } := by
      unfold pkFieldSet at hS
      split at hS
      · exact (Option.some.inj hS).symm
      · exact absurd hS (by simp)
    subst h3
    split at hI
    · simp at hI
    · rename_i sc hc
      simp only [Prod.mk.injEq, and_true] at hI
      rw [← hI]; exact hc

/-- Every path of `Update` adds no insert call to the trace. -/
theorem Update_mem_Append (B : Backend DB) (T : ItemType DB) (s : store) (st : State DB)
    (it : Item) (hm : Event.Append it ∈ (store.Update B T s st).1.trace) :
    Event.Append it ∈ st.trace := by
  simp only [store.Update] at hm
  split at hm
  · exact hm
  · split at hm
    · rename_i sb e hB
      exact callHook_mem_Append hB it hm
    · rename_i sb hB
      split at hm
      · simp only [List.mem_append, List.mem_singleton] at hm
        rcases hm with hm | hm
        · exact callHook_mem_Append hB it hm
        · exact absurd hm (by simp)
      · have h2 := callHook_mem_Append (callHook_eta _ _ _) it hm
        simp only [List.mem_append, List.mem_singleton] at h2
        rcases h2 with h2 | h2
        · exact callHook_mem_Append hB it h2
        · exact absurd h2 (by simp)

/-- Every path of `Update` changes the row count only through its hooks and the update
primitive. -/
theorem Update_rows (rows : DB → Nat) (B : Backend DB) (T : ItemType DB) (s : store)
    (st : State DB) (hT : hooksAddNoRow rows T) (hU : updateAddsNoRow rows B) :
    rows (store.Update B T s st).1.db ≤ rows st.db := by
  have hbu := map_session_rows rows T.BeforeUpdate s.session hT.2.1
  have hau := map_session_rows rows T.AfterUpdate s.session hT.2.2
  simp only [store.Update]
  split
  · exact le_rfl
  · rename_i info hpk
    split
    · rename_i sb e hB
      exact callHook_rows rows hbu hB
    · rename_i sb hB
      have h1 := callHook_rows rows hbu hB
      have h2 := hU s.Collection info.pkFieldInfo.Name st.item.pk sb.item sb.db
      split
      · rename_i db2 err hA
        rw [hA] at h2
        exact le_trans h2 h1
      · rename_i db2 hA
        rw [hA] at h2
        have h3 := callHook_rows rows hau (callHook_eta HookName.AfterUpdate
          (T.AfterUpdate.map (fun f => f s.session))
          { sb with db := db2,
                    trace := sb.trace ++
                      [Event.FindUpdate info.pkFieldInfo.Name st.item.pk sb.item] })
        exact le_trans h3 (le_trans h2 h1)

theorem heap_old_after_alloc (h : Heap) (cur : session) (q : Nat) (hq : q < h.length) :
    ((h ++ [cur]).set h.length { cur with stores := some [] })[q]? = h[q]? := by
  have hne : h.length ≠ q := by omega
  rw [List.getElem?_set_ne hne, List.getElem?_append_left hq]

/-- The outcome of `Tx` on a target for which a session with database `d` is allocated. -/
theorem Tx_alloc (E : Env) (h : Heap) (s : store) (tx : Target) (d : Option DbRef)
    (hsw : store.txSession E h s tx
      = some (h ++ [{ Database := d, stores := none }], h.length)) :
    store.Tx E h s tx = match d with
      | none => none
      | some v =>
        if Database.callable h h.length v then
          some ((h ++ [({ Database := d, stores := none } : session)]).set h.length
                  { Database := d, stores := some [] },
                { Collection := Database.C v s.Collection.Name, session := h.length })
        else none := by
  simp only [store.Tx, hsw]
  simp
  cases d <;> simp

/-- Every target for which the type switch does not panic gets a session allocated by
the call: the arm `case Session` is taken by no target. -/
theorem txSession_alloc (E : Env) (h : Heap) (s : store) (tx : Target) (h1 : Heap)
    (p : Nat) (hsw : store.txSession E h s tx = some (h1, p)) :
    ∃ d, store.txSession E h s tx
      = some (h ++ [{ Database := d, stores := none }], h.length) := by
  cases tx with
  | Tx v => exact ⟨_, rfl⟩
  | Database v => exact ⟨_, rfl⟩
  | sqlDB v =>
    cases hc : h[s.Session]? with
    | none => simp [store.txSession, store.txClone, Target.satisfies, hc] at hsw
    | some cur =>
      exact ⟨(E.WithSession cur (SqlHandle.DB v)).map DbRef.handle,
        by simp [store.txSession, store.txClone, Target.satisfies, Target.asSql, hc]⟩
  | sqlTx v =>
    cases hc : h[s.Session]? with
    | none => simp [store.txSession, store.txClone, Target.satisfies, hc] at hsw
    | some cur =>
      exact ⟨(E.WithSession cur (SqlHandle.Tx v)).map DbRef.handle,
        by simp [store.txSession, store.txClone, Target.satisfies, Target.asSql, hc]⟩
  | Session q => exact ⟨_, rfl⟩
  | unknown => simp [store.txSession, Target.satisfies] at hsw

/-- The one way `Tx` returns: bound to a session allocated by the call. -/
theorem Tx_cases (E : Env) (h : Heap) (s : store) (tx : Target) (h1 : Heap) (s1 : store)
    (hTx : store.Tx E h s tx = some (h1, s1)) :
    ∃ d, s1 = { Collection := Database.C d s.Collection.Name, session := h.length } ∧
      h1 = (h ++ [({ Database := some d, stores := none } : session)]).set h.length
             { Database := some d, stores := some [] } := by
  cases hsw : store.txSession E h s tx with
  | none => simp [store.Tx, hsw] at hTx
  | some r =>
    obtain ⟨d, hd⟩ := txSession_alloc E h s tx r.1 r.2 hsw
    rw [Tx_alloc E h s tx d hd] at hTx
    cases d with
    | none => simp at hTx
    | some v =>
      simp only at hTx
      split at hTx
      · simp only [Option.some.injEq, Prod.mk.injEq] at hTx
        exact ⟨v, hTx.2.symm, hTx.1.symm⟩
      · simp at hTx

/-- A valid target makes `Tx` return. -/
theorem Tx_of_valid (E : Env) (h : Heap) (s : store) (tx : Target)
    (hv : validTarget E h s tx = true) : ∃ h1 s1, store.Tx E h s tx = some (h1, s1) := by
  have alloc : ∀ d : DbRef, Database.callable h h.length d = true →
      store.txSession E h s tx
        = some (h ++ [{ Database := some d, stores := none }], h.length) →
      ∃ h1 s1, store.Tx E h s tx = some (h1, s1) := by
    intro d hd hsw
    rw [Tx_alloc E h s tx (some d) hsw]
    simp only [hd, if_true]
    exact ⟨_, _, rfl⟩
  cases tx with
  | Tx v => exact alloc (DbRef.handle v) (by cases h <;> rfl) rfl
  | Database v => exact alloc (DbRef.handle v) (by cases h <;> rfl) rfl
  | sqlDB v =>
    simp only [validTarget] at hv
    cases hc : h[s.Session]? with
    | none => simp [hc] at hv
    | some cur =>
      simp only [hc] at hv
      obtain ⟨d, hd⟩ := Option.isSome_iff_exists.mp hv
      exact alloc (DbRef.handle d) (by cases h <;> rfl)
        (by simp [store.txSession, store.txClone, Target.satisfies, Target.asSql, hc, hd])
  | sqlTx v =>
    simp only [validTarget] at hv
    cases hc : h[s.Session]? with
    | none => simp [hc] at hv
    | some cur =>
      simp only [hc] at hv
      obtain ⟨d, hd⟩ := Option.isSome_iff_exists.mp hv
      exact alloc (DbRef.handle d) (by cases h <;> rfl)
        (by simp [store.txSession, store.txClone, Target.satisfies, Target.asSql, hc, hd])
  | Session p => exact alloc (DbRef.session p) hv rfl
  | unknown => simp [validTarget] at hv

/-- Every session that existed before `Tx` is the same after it. -/
theorem Tx_keeps_sessions (E : Env) (h : Heap) (s : store) (tx : Target) (h1 : Heap)
    (s1 : store) (hTx : store.Tx E h s tx = some (h1, s1)) (q : Nat) (hq : q < h.length) :
    h1[q]? = h[q]? := by
  obtain ⟨d, -, hh⟩ := Tx_cases E h s tx h1 s1 hTx
  rw [hh, heap_old_after_alloc h _ q hq]

end Lemmas

/-! ## The claims -/

section Claims
variable {DB : Type}

/-- C1. When the primary key of the item is resolvable and its value is the zero value,
`Delete` returns exactly `ErrZeroItemID` and leaves the whole state as it was: the item,
the stored rows, and the record of calls (no `BeforeDelete`, no `AfterDelete`, no find
or remove on the collection). -/
theorem Delete_zero_pk (B : Backend DB) (T : ItemType DB) (s : store) (st : State DB)
    (info : structInfo) (hpk : T.getPrimaryField = Except.ok info)
    (hz : st.item.pk = info.pkFieldInfo.Zero) :
    store.Delete B T s st = (st, some Err.ErrZeroItemID) := by
  simp [store.Delete, hpk, hz]

/-- Witness of C1: an account with `id` 0 and both delete hooks implemented, against a
collection holding one row. -/
theorem Delete_zero_pk_witness :
    store.Delete listBackend hookedType accounts
        { item := account 0 "X", db := [account 1 "Pressly"], trace := [] }
      = ({ item := account 0 "X", db := [account 1 "Pressly"], trace := [] },
          some Err.ErrZeroItemID) :=
  Delete_zero_pk listBackend hookedType accounts _ idInfo rfl rfl

/-- C5. When a step that precedes the storage call fails with `e` (`Validate` in
`Append` or `Save`, `BeforeCreate` in `Append` or `Insert`, `BeforeUpdate` in `Update`,
`BeforeDelete` in `Delete`), the operation returns exactly `e`; the only call it adds
after the hooks that already succeeded is the failing hook, so no collection primitive
and no `After*` hook is called; and the item and the stored data are the ones the
failing hook left (in `Insert` the primary key is not written). -/
theorem pre_storage_failure (B : Backend DB) (T : ItemType DB) (s : store) (st : State DB)
    (e : Err) :
    (∀ f, T.Validate = some f → (f st.item st.db).err = some e →
      store.Append B T s st =
        ({ item := (f st.item st.db).item, db := (f st.item st.db).db,
           trace := st.trace ++ [Event.hook HookName.Validate st.item] },
          Val.nil, some e)) ∧
    (∀ info f, T.getPrimaryField = Except.ok info → T.Validate = some f →
      (f st.item st.db).err = some e →
      store.Save B T s st =
        ({ item := (f st.item st.db).item, db := (f st.item st.db).db,
           trace := st.trace ++ [Event.hook HookName.Validate st.item] },
          Ret.returned (some e))) ∧
    (∀ st1 f, callHook HookName.Validate T.Validate st = (st1, none) →
      T.BeforeCreate = some f → (f s.session st1.item st1.db).err = some e →
      store.Append B T s st =
        ({ item := (f s.session st1.item st1.db).item, db := (f s.session st1.item st1.db).db,
           trace := st.trace ++ optEvent T.Validate HookName.Validate st.item
             ++ [Event.hook HookName.BeforeCreate st1.item] },
          Val.nil, some e)) ∧
    (∀ info f, T.getPrimaryField = Except.ok info → T.BeforeCreate = some f →
      (f s.session st.item st.db).err = some e →
      store.Insert B T s st =
        ({ item := (f s.session st.item st.db).item, db := (f s.session st.item st.db).db,
           trace := st.trace ++ [Event.hook HookName.BeforeCreate st.item] },
          Ret.returned (some e))) ∧
    (∀ info f, T.getPrimaryField = Except.ok info → T.BeforeUpdate = some f →
      (f s.session st.item st.db).err = some e →
      store.Update B T s st =
        ({ item := (f s.session st.item st.db).item, db := (f s.session st.item st.db).db,
           trace := st.trace ++ [Event.hook HookName.BeforeUpdate st.item] },
          some e)) ∧
    (∀ info f, T.getPrimaryField = Except.ok info → st.item.pk ≠ info.pkFieldInfo.Zero →
      T.BeforeDelete = some f → (f s.session st.item st.db).err = some e →
      store.Delete B T s st =
        ({ item := (f s.session st.item st.db).item, db := (f s.session st.item st.db).db,
           trace := st.trace ++ [Event.hook HookName.BeforeDelete st.item] },
          some e)) := by
  refine ⟨?_, ?_, ?_, ?_, ?_, ?_⟩
  · intro f hf he
    simp [store.Append, callHook, hf, he]
  · intro info f hpk hf he
    simp [store.Save, callHook, hpk, hf, he]
  · intro st1 f hV hf he
    have ht := callHook_trace hV
    simp only [store.Append, hV]
    simp [callHook, hf, he, ht]
  · intro info f hpk hf he
    simp [store.Insert, callHook, hpk, hf, he]
  · intro info f hpk hf he
    simp [store.Update, callHook, hpk, hf, he]
  · intro info f hpk hnz hf he
    simp [store.Delete, callHook, hpk, hnz, hf, he]

/-- Witness of C5: `BeforeCreate` fails with code 7 in `Insert` and in `Append`,
`BeforeDelete` fails with code 7 in `Delete`; the rows and the `id` are untouched. -/
theorem pre_storage_failure_witness :
    store.Insert listBackend { hookedType with BeforeCreate := some (fun _ => failWith 7) }
        accounts { item := account 0 "X", db := [account 1 "P"], trace := [] }
      = ({ item := account 0 "X", db := [account 1 "P"],
           trace := [Event.hook HookName.BeforeCreate (account 0 "X")] },
          Ret.returned (some (Err.code 7))) ∧
    store.Append listBackend { hookedType with BeforeCreate := some (fun _ => failWith 7) }
        accounts { item := account 0 "X", db := [account 1 "P"], trace := [] }
      = ({ item := account 0 "X", db := [account 1 "P"],
           trace := [Event.hook HookName.Validate (account 0 "X"),
                     Event.hook HookName.BeforeCreate (account 0 "X")] },
          Val.nil, some (Err.code 7)) ∧
    store.Delete listBackend { hookedType with BeforeDelete := some (fun _ => failWith 7) }
        accounts { item := account 1 "X", db := [account 1 "P"], trace := [] }
      = ({ item := account 1 "X", db := [account 1 "P"],
           trace := [Event.hook HookName.BeforeDelete (account 1 "X")] },
          some (Err.code 7)) :=
  ⟨(pre_storage_failure listBackend _ accounts _ (Err.code 7)).2.2.2.1 idInfo _ rfl rfl rfl,
   (pre_storage_failure listBackend _ accounts _ (Err.code 7)).2.2.1 _ _ rfl rfl rfl,
   (pre_storage_failure listBackend _ accounts _ (Err.code 7)).2.2.2.2.2 idInfo _ rfl
     (by decide) rfl rfl⟩

/-- C6, as the code has it. When every earlier step succeeded and the `After*` hook
fails with `e`, the operation returns exactly `e` (`Append` returns the nil id with
it); the collection primitive was called once, before the hook, and nothing follows
the hook: the stored data and the item are the ones the failing hook left, starting
from the result of the primitive and, in `Insert`, from the item with the identifier
written to its primary key, which stays there unless the failing hook itself
reassigned it. -/
theorem after_hook_failure (B : Backend DB) (T : ItemType DB) (s : store) (st : State DB)
    (e : Err) :
    (∀ st1 st2 db3 id f, callHook HookName.Validate T.Validate st = (st1, none) →
      callHook HookName.BeforeCreate (T.BeforeCreate.map (fun g => g s.session)) st1
        = (st2, none) →
      B.Append s.Collection st2.item st2.db = (db3, id, none) →
      T.AfterCreate = some f → (f s.session st2.item db3).err = some e →
      store.Append B T s st =
        ({ item := (f s.session st2.item db3).item, db := (f s.session st2.item db3).db,
           trace := st.trace ++ optEvent T.Validate HookName.Validate st.item
             ++ optEvent T.BeforeCreate HookName.BeforeCreate st1.item
             ++ [Event.Append st2.item, Event.hook HookName.AfterCreate st2.item] },
          Val.nil, some e)) ∧
    (∀ info st1 db2 id it3 f, T.getPrimaryField = Except.ok info →
      callHook HookName.BeforeCreate (T.BeforeCreate.map (fun g => g s.session)) st
        = (st1, none) →
      B.Append s.Collection st1.item st1.db = (db2, id, none) →
      pkFieldSet T info st1.item id = some it3 →
      T.AfterCreate = some f → (f s.session it3 db2).err = some e →
      it3 = { st1.item with pk := id } ∧
      store.Insert B T s st =
        ({ item := (f s.session it3 db2).item, db := (f s.session it3 db2).db,
           trace := st.trace ++ optEvent T.BeforeCreate HookName.BeforeCreate st.item
             ++ [Event.Append st1.item, Event.hook HookName.AfterCreate it3] },
          Ret.returned (some e)) ∧
      ((f s.session it3 db2).item.pk = it3.pk →
        (store.Insert B T s st).1.item.pk = id)) ∧
    (∀ info st1 db2 f, T.getPrimaryField = Except.ok info →
      callHook HookName.BeforeUpdate (T.BeforeUpdate.map (fun g => g s.session)) st
        = (st1, none) →
      B.FindUpdate s.Collection info.pkFieldInfo.Name st.item.pk st1.item st1.db
        = (db2, none) →
      T.AfterUpdate = some f → (f s.session st1.item db2).err = some e →
      store.Update B T s st =
        ({ item := (f s.session st1.item db2).item, db := (f s.session st1.item db2).db,
           trace := st.trace ++ optEvent T.BeforeUpdate HookName.BeforeUpdate st.item
             ++ [Event.FindUpdate info.pkFieldInfo.Name st.item.pk st1.item,
                 Event.hook HookName.AfterUpdate st1.item] },
          some e)) ∧
    (∀ info st1 db2 f, T.getPrimaryField = Except.ok info →
      st.item.pk ≠ info.pkFieldInfo.Zero →
      callHook HookName.BeforeDelete (T.BeforeDelete.map (fun g => g s.session)) st
        = (st1, none) →
      B.FindRemove s.Collection info.pkFieldInfo.Name st.item.pk st1.db = (db2, none) →
      T.AfterDelete = some f → (f s.session st1.item db2).err = some e →
      store.Delete B T s st =
        ({ item := (f s.session st1.item db2).item, db := (f s.session st1.item db2).db,
           trace := st.trace ++ optEvent T.BeforeDelete HookName.BeforeDelete st.item
             ++ [Event.FindRemove info.pkFieldInfo.Name st.item.pk,
                 Event.hook HookName.AfterDelete st1.item] },
          some e)) := by
  refine ⟨?_, ?_, ?_, ?_⟩
  · intro st1 st2 db3 id f hV hB hA hf he
    have h1 := callHook_trace hV
    have h2 := callHook_trace hB
    simp only [store.Append, hV, hB, hA]
    simp [callHook, hf, he, h1, h2, optEvent_map]
  · intro info st1 db2 id it3 f hpk hB hA hS hf he
    have h2 := callHook_trace hB
    have h3 : it3 = { st1.item with pk := id } := by
      unfold pkFieldSet at hS
      split at hS
      · exact (Option.some.inj hS).symm
      · exact absurd hS (by simp)
    have hI : store.Insert B T s st =
        ({ item := (f s.session it3 db2).item, db := (f s.session it3 db2).db,
           trace := st.trace ++ optEvent T.BeforeCreate HookName.BeforeCreate st.item
             ++ [Event.Append st1.item, Event.hook HookName.AfterCreate it3] },
          Ret.returned (some e)) := by
      simp only [store.Insert, hpk, hB, hA, hS]
      simp [callHook, hf, he, h2, optEvent_map]
    refine ⟨h3, hI, ?_⟩
    intro hk
    rw [hI]
    show (f s.session it3 db2).item.pk = id
    rw [hk, h3]
  · intro info st1 db2 f hpk hB hA hf he
    have h2 := callHook_trace hB
    simp only [store.Update, hpk, hB, hA]
    simp [callHook, hf, he, h2, optEvent_map]
  · intro info st1 db2 f hpk hnz hB hA hf he
    have h2 := callHook_trace hB
    simp only [store.Delete, hpk, hnz, if_false, hB, hA]
    simp [callHook, hf, he, h2, optEvent_map]

/-- Witness of C6: `AfterCreate` fails with code 3 in `Insert`: the row is stored and
the item keeps the identifier 2; `AfterDelete` fails with code 3 in `Delete`: the row
is gone. -/
theorem after_hook_failure_witness :
    store.Insert listBackend { hookedType with AfterCreate := some (fun _ => failWith 3) }
        accounts { item := account 0 "X", db := [account 1 "P"], trace := [] }
      = ({ item := account 2 "X", db := [account 1 "P", account 2 "X"],
           trace := [Event.hook HookName.BeforeCreate (account 0 "X"),
                     Event.Append (account 0 "X"),
                     Event.hook HookName.AfterCreate (account 2 "X")] },
          Ret.returned (some (Err.code 3))) ∧
    store.Delete listBackend { hookedType with AfterDelete := some (fun _ => failWith 3) }
        accounts { item := account 1 "X", db := [account 1 "P"], trace := [] }
      = ({ item := account 1 "X", db := [],
           trace := [Event.hook HookName.BeforeDelete (account 1 "X"),
                     Event.FindRemove "id" (Val.int64 1),
                     Event.hook HookName.AfterDelete (account 1 "X")] },
          some (Err.code 3)) :=
  ⟨((after_hook_failure listBackend
        { hookedType with AfterCreate := some (fun _ => failWith 3) } accounts
        { item := account 0 "X", db := [account 1 "P"], trace := [] }
        (Err.code 3)).2.1 idInfo _ _ _ _ _ rfl rfl rfl rfl rfl rfl).2.1,
   (after_hook_failure listBackend
        { hookedType with AfterDelete := some (fun _ => failWith 3) } accounts
        { item := account 1 "X", db := [account 1 "P"], trace := [] }
        (Err.code 3)).2.2.2 idInfo _ _ _ rfl (by decide) rfl rfl rfl rfl⟩

/-- Counterexample to C6 as stated: `AfterCreate` clears the `id` of its receiver and
fails with code 3. `Insert` returns that error, the row stays stored under the
identifier 2 assigned by the collection, and the primary key of the item is 0, not the
identifier written back. -/
theorem Insert_failing_AfterCreate_clears_pk :
    store.Insert listBackend clearingType accounts
        { item := account 0 "X", db := [account 1 "P"], trace := [] }
      = ({ item := account 0 "X", db := [account 1 "P", account 2 "X"],
           trace := [Event.Append (account 0 "X"),
                     Event.hook HookName.AfterCreate (account 2 "X")] },
          Ret.returned (some (Err.code 3))) ∧
    (listBackend.Append accounts.Collection (account 0 "X") [account 1 "P"]).2
      = (Val.int64 2, none) ∧
    (store.Insert listBackend clearingType accounts
        { item := account 0 "X", db := [account 1 "P"], trace := [] }).1.item.pk
      ≠ Val.int64 2 := by
  refine ⟨rfl, rfl, ?_⟩
  decide

/-- C7. Whatever the item and its primary key, when `Validate`, `BeforeCreate`, the
collection insert and `AfterCreate` succeed, `Append` returns the identifier produced
by the insert with a nil error; the insert is the only collection primitive it calls
(no update); and the store writes nothing on the item: the item that enters the insert
and `AfterCreate` is the one `BeforeCreate` left, the final item is the one
`AfterCreate` left, and without hooks the item is unchanged. -/
theorem Append_unconditional (B : Backend DB) (T : ItemType DB) (s : store)
    (st st1 st2 st4 : State DB) (db3 : DB) (id : Val)
    (hV : callHook HookName.Validate T.Validate st = (st1, none))
    (hB : callHook HookName.BeforeCreate (T.BeforeCreate.map (fun g => g s.session)) st1
        = (st2, none))
    (hA : B.Append s.Collection st2.item st2.db = (db3, id, none))
    (hC : callHook HookName.AfterCreate (T.AfterCreate.map (fun g => g s.session))
        { st2 with db := db3, trace := st2.trace ++ [Event.Append st2.item] }
        = (st4, none)) :
    store.Append B T s st = (st4, id, none) ∧
    st4.trace = st.trace ++ optEvent T.Validate HookName.Validate st.item
      ++ optEvent T.BeforeCreate HookName.BeforeCreate st1.item
      ++ [Event.Append st2.item] ++ optEvent T.AfterCreate HookName.AfterCreate st2.item ∧
    primitives st4.trace = primitives st.trace ++ [Event.Append st2.item] ∧
    (T.AfterCreate = none → st4.item = st2.item) ∧
    (∀ f, T.AfterCreate = some f → st4.item = (f s.session st2.item db3).item) ∧
    (T.Validate = none → T.BeforeCreate = none → T.AfterCreate = none →
      st4.item = st.item) := by
  have h1 := callHook_trace hV
  have h2 := callHook_trace hB
  have h4 := callHook_trace hC
  have ht : st4.trace = st.trace ++ optEvent T.Validate HookName.Validate st.item
      ++ optEvent T.BeforeCreate HookName.BeforeCreate st1.item
      ++ [Event.Append st2.item]
      ++ optEvent T.AfterCreate HookName.AfterCreate st2.item := by
    rw [h4]; simp [h1, h2, optEvent_map]
  have hnone : T.AfterCreate = none → st4.item = st2.item := by
    intro hn
    rw [hn] at hC
    rw [(callHook_none hC).1]
  have hsome : ∀ f, T.AfterCreate = some f → st4.item = (f s.session st2.item db3).item := by
    intro f hf
    rw [hf] at hC
    rw [(callHook_some hC).1]
  refine ⟨?_, ht, ?_, hnone, hsome, ?_⟩
  · simp only [store.Append, hV, hB, hA, hC]
  · rw [ht]
    simp only [primitives_append, primitives_optEvent, List.append_nil]
    rfl
  · intro hv hb ha
    rw [hv] at hV
    rw [hb] at hB
    rw [hnone ha, (callHook_none hB).1, (callHook_none hV).1]

/-- Witness of C7: `Append` of an account with the non-zero `id` 5 and no hook, into a
collection holding one row: the insert runs, identifier 2 is returned, and the item
still carries `id` 5. -/
theorem Append_unconditional_witness :
    store.Append listBackend plainType accounts
        { item := account 5 "Google", db := [account 1 "Apple"], trace := [] }
      = ({ item := account 5 "Google", db := [account 1 "Apple", account 2 "Google"],
           trace := [Event.Append (account 5 "Google")] }, Val.int64 2, none) :=
  (Append_unconditional listBackend plainType accounts
    { item := account 5 "Google", db := [account 1 "Apple"], trace := [] }
    _ _ _ _ _ rfl rfl rfl rfl).1

/-- C2, as the code has it. With a resolvable primary key and `Validate` absent or
successful, `Save` decides on the primary key as it is after `Validate`. When it is the
zero value `Save` is `Insert`: after a successful `Save`, `AfterCreate` was entered with
the identifier assigned by the collection as primary key, and the item keeps it (a
non-zero one when the collection assigned a non-zero one) when `AfterCreate` is absent
or leaves the primary key as it found it. When it is not the zero value `Save` is
`Update`: the store makes no insert call, and the row count does not increase as long
as neither the hooks nor the update primitive of the collection add rows. -/
theorem Save_dispatch (B : Backend DB) (T : ItemType DB) (s : store)
    (st st1 : State DB) (info : structInfo)
    (hpk : T.getPrimaryField = Except.ok info)
    (hV : callHook HookName.Validate T.Validate st = (st1, none)) :
    (st1.item.pk = info.pkFieldInfo.Zero →
      store.Save B T s st = store.Insert B T s st1 ∧
      ∀ st2 st4 db3 id,
        callHook HookName.BeforeCreate (T.BeforeCreate.map (fun g => g s.session)) st1
          = (st2, none) →
        B.Append s.Collection st2.item st2.db = (db3, id, none) →
        store.Save B T s st = (st4, Ret.returned none) →
        callHook HookName.AfterCreate (T.AfterCreate.map (fun g => g s.session))
          { item := { st2.item with pk := id }, db := db3,
            trace := st2.trace ++ [Event.Append st2.item] } = (st4, none) ∧
        ((∀ f, T.AfterCreate = some f →
            (f s.session { st2.item with pk := id } db3).item.pk = id) →
          st4.item.pk = id ∧ (id ≠ info.pkFieldInfo.Zero →
            st4.item.pk ≠ info.pkFieldInfo.Zero))) ∧
    (st1.item.pk ≠ info.pkFieldInfo.Zero →
      store.Save B T s st
        = ((store.Update B T s st1).1, Ret.returned (store.Update B T s st1).2) ∧
      (∀ it, Event.Append it ∈ (store.Save B T s st).1.trace → Event.Append it ∈ st.trace) ∧
      (∀ rows : DB → Nat, hooksAddNoRow rows T → updateAddsNoRow rows B →
        rows (store.Save B T s st).1.db ≤ rows st.db)) := by
  constructor
  · intro hz
    have hS : store.Save B T s st = store.Insert B T s st1 := by
      simp only [store.Save, hpk, hV, hz, if_true]
    refine ⟨hS, ?_⟩
    intro st2 st4 db3 id hB hA hok
    rw [hS] at hok
    have hC := Insert_ok_inv B T s st1 st2 st4 info db3 id hpk hB hA hok
    refine ⟨hC, ?_⟩
    intro hkeep
    have hid : st4.item.pk = id := by
      cases hac : T.AfterCreate with
      | none =>
        rw [hac] at hC
        rw [(callHook_none hC).1]
      | some f =>
        rw [hac] at hC
        rw [(callHook_some hC).1]
        exact hkeep f hac
    exact ⟨hid, fun hne => by rw [hid]; exact hne⟩
  · intro hnz
    have hS : store.Save B T s st
        = ((store.Update B T s st1).1, Ret.returned (store.Update B T s st1).2) := by
      simp only [store.Save, hpk, hV, hnz, if_false]
    refine ⟨hS, ?_, ?_⟩
    · intro it hm
      rw [hS] at hm
      exact callHook_mem_Append hV it (Update_mem_Append B T s st1 it hm)
    · intro rows hT hU
      rw [hS]
      exact le_trans (Update_rows rows B T s st1 hT hU) (callHook_rows rows hT.1 hV)

/-- Witness of C2: `Save` of a new account (`id` 0) stores it and leaves it with the
assigned `id` 2; `Save` of the account with `id` 1 keeps the row count at 1. -/
theorem Save_dispatch_witness :
    (store.Save listBackend hookedType accounts
        { item := account 0 "Pressly", db := [account 1 "P"], trace := [] }).1.item.pk
      = Val.int64 2 ∧
    List.length (store.Save listBackend hookedType accounts
        { item := account 1 "Pressly", db := [account 1 "P"], trace := [] }).1.db
      ≤ List.length [account 1 "P"] :=
  ⟨(((Save_dispatch listBackend hookedType accounts
        { item := account 0 "Pressly", db := [account 1 "P"], trace := [] }
        _ idInfo rfl rfl).1 rfl).2 _ _ _ _ rfl rfl rfl).2
      (fun _ h => by cases h; rfl) |>.1,
   ((Save_dispatch listBackend hookedType accounts
        { item := account 1 "Pressly", db := [account 1 "P"], trace := [] }
        _ idInfo rfl rfl).2 (by decide)).2.2 List.length
      (by
        refine ⟨?_, ?_, ?_⟩
        · intro f h it db; cases h; exact le_rfl
        · intro f h p it db; cases h; exact le_rfl
        · intro f h p it db; cases h; exact le_rfl)
      (by intro c key id it db; simp [listBackend])⟩

/-- Counterexample to C2 as stated: `Save` of a new account (`id` 0) takes the insert
path and succeeds, the collection assigned the non-zero identifier 1, and the primary
key of the item after `Save` is 0, the value `AfterCreate` assigned. -/
theorem Save_pk_after_AfterCreate :
    (store.Save listBackend resettingType accounts
        { item := account 0 "Pressly", db := [], trace := [] }).2 = Ret.returned none ∧
    (store.Save listBackend resettingType accounts
        { item := account 0 "Pressly", db := [], trace := [] }).1.trace
      = [Event.Append (account 0 "Pressly"),
         Event.hook HookName.AfterCreate (account 1 "Pressly")] ∧
    (store.Save listBackend resettingType accounts
        { item := account 0 "Pressly", db := [], trace := [] }).1.db
      = [account 1 "Pressly"] ∧
    (store.Save listBackend resettingType accounts
        { item := account 0 "Pressly", db := [], trace := [] }).1.item.pk = Val.int64 0 ∧
    Val.int64 0 ≠ Val.int64 1 := by
  refine ⟨rfl, rfl, rfl, rfl, ?_⟩
  decide

/-- C8. For a store bound to a live session and every valid rebinding target (a `db.Tx`,
a `db.Database`, a raw `*sql.DB` or `*sql.Tx`, a `Session`), `Tx` returns a store
whose `Name()` is the `Name()` of the receiver; the receiver is not written, and the
session it is bound to keeps its database and its registry entries. -/
theorem Tx_preserves_name (E : Env) (h : Heap) (s : store) (tx : Target)
    (hlive : s.session < h.length) (hv : validTarget E h s tx = true) :
    (store.Tx E h s tx).map (fun r => r.2.Name) = some s.Name ∧
    (store.Tx E h s tx).map (fun r => (r.1[s.session]?).map session.Database)
      = some ((h[s.session]?).map session.Database) ∧
    (store.Tx E h s tx).map (fun r => (r.1[s.session]?).map session.entries)
      = some ((h[s.session]?).map session.entries) := by
  obtain ⟨h1, s1, hTx⟩ := Tx_of_valid E h s tx hv
  have hk := Tx_keeps_sessions E h s tx h1 s1 hTx s.session hlive
  have hn : s1.Name = s.Name := by
    obtain ⟨d, hs, -⟩ := Tx_cases E h s tx h1 s1 hTx
    rw [hs]; rfl
  rw [hTx]
  simp only [Option.map_some', hn, hk, and_self]

/-- Witness of C8: `accounts.Tx` of a raw `*sql.DB`, and of the session of `accounts`
itself. -/
theorem Tx_preserves_name_witness :
    (store.Tx cloningEnv bareHeap accounts (Target.sqlDB 7)).map (fun r => r.2.Name)
      = some "accounts" ∧
    (store.Tx cloningEnv bareHeap accounts (Target.Session accounts.Session)).map
      (fun r => r.2.Name) = some "accounts" :=
  ⟨(Tx_preserves_name cloningEnv bareHeap accounts (Target.sqlDB 7)
      (by decide) (by decide)).1,
   (Tx_preserves_name cloningEnv bareHeap accounts (Target.Session accounts.Session)
      (by decide) (by decide)).1⟩

end Claims

end Bond
